import Mathlib

/-!
Shallow embedding of the task-rand activity scheduling engine
(src/app.rs, src/main.rs, src/taskwarrior.rs) for verification of the
specification claims.

Modelling conventions:
- chrono Duration is a signed number of milliseconds (Int);
  chrono DateTime is an instant, also an Int.
- Randomness is passed in explicitly: the d6 roll from
  rand random_range(0..=5) is a Fin 6 argument, and the random draw
  inside choose_weighted is an Int argument reduced modulo the total
  weight.
- External calls (taskwarrior export, command exit statuses) are passed
  in as explicit oracle values, since they are request/response
  boundaries in the source.
- Rust Result with in-place mutation of self is modelled as a pair of
  the state at the point of return and an optional error: on an early
  error return the mutations already applied to self are kept, exactly
  as in the source.
-/

namespace TaskRand

/-- chrono Duration, modelled as a signed count of milliseconds. -/
abbrev Duration := Int

/-- chrono Duration.minutes. -/
def Duration.minutes (n : Int) : Duration := n * 60000

/-- Task record. The file task.rs is not in the sources; this carries the
fields app.rs actually uses: uuid (mutation identifier), description,
the optional time estimate, and the urgency score. urgency stands for
the value of the external urgency_at(now, config) at the selection
instant; it is a weight input to selection, supplied externally. -/
structure Task where
  uuid : String
  description : String
  estimate : Option Duration
  urgency : Int
deriving Repr, DecidableEq

/-- Activity from app.rs: Nothing, Task (a work session) or Break. -/
inductive Activity where
  | Nothing : Activity
  | Task (task : Task) (started : Int) (length : Duration)
      (original_length : Duration) : Activity
  | Break (started : Int) (length : Duration)
      (original_length : Duration) : Activity
deriving Repr, DecidableEq

/-- Activity.is_nothing from app.rs. -/
def Activity.is_nothing : Activity → Bool
  | .Nothing => true
  | _ => false

/-- Activity.is_break from app.rs. -/
def Activity.is_break : Activity → Bool
  | .Break _ _ _ => true
  | _ => false

/-- The planned length of the current interval (the length field of the
Task and Break variants; 0 for Nothing). -/
def Activity.planned_length : Activity → Duration
  | .Nothing => 0
  | .Task _ _ l _ => l
  | .Break _ l _ => l

/-- The original length of the current interval (the original_length
field of the Task and Break variants; 0 for Nothing). -/
def Activity.original_len : Activity → Duration
  | .Nothing => 0
  | .Task _ _ _ o => o
  | .Break _ _ o => o

/-- The started field of the Task and Break variants (0 for Nothing). -/
def Activity.started_at : Activity → Int
  | .Nothing => 0
  | .Task _ s _ _ => s
  | .Break s _ _ => s

/-- Activity.extend from app.rs: add original_length to length for Task
and Break; no-op for Nothing. -/
def Activity.extend : Activity → Activity
  | .Nothing => .Nothing
  | .Task t s l o => .Task t s (l + o) o
  | .Break s l o => .Break s (l + o) o

/-- A staged external command: program plus arguments, as built with
tokio Command in the source. -/
structure Command where
  program : String
  args : List String
deriving Repr, DecidableEq

/-- Taskwarrior from taskwarrior.rs: just the binary path. -/
structure Taskwarrior where
  binary : String
deriving Repr, DecidableEq

/-- Taskwarrior.mark_done_command from taskwarrior.rs:
binary [id, "done"]. -/
def Taskwarrior.mark_done_command (tw : Taskwarrior) (id : String) :
    Command :=
  { program := tw.binary, args := [id, "done"] }

/-- The modify command built in the handler of key w:
tw.modify().with_subject(uuid).with_mod("wait:1h").command(), which is
binary [uuid, "modify", "wait:1h"]. -/
def Taskwarrior.modify_wait_command (tw : Taskwarrior) (uuid : String) :
    Command :=
  { program := tw.binary, args := [uuid, "modify", "wait:1h"] }

/-- The edit command built in the handler of key e:
binary [uuid, "edit"]. -/
def Taskwarrior.edit_command (tw : Taskwarrior) (uuid : String) :
    Command :=
  { program := tw.binary, args := [uuid, "edit"] }

/-- The command built in the handler of key o: tw-open [uuid]. -/
def open_command (uuid : String) : Command :=
  { program := "tw-open", args := [uuid] }

/-- The command built in the handler of key b:
tw-breakdown ["--seq", uuid]. -/
def breakdown_command (uuid : String) : Command :=
  { program := "tw-breakdown", args := ["--seq", uuid] }

/-- Activity.mark_done_command from app.rs: the taskwarrior done command
for the held task when Working, None otherwise. -/
def Activity.mark_done_command (tw : Taskwarrior) :
    Activity → Option Command
  | .Task t _ _ _ => some (tw.mark_done_command t.uuid)
  | _ => none

/-- Errors surfaced through anyhow Result in the engine paths the claims
mention. SelectionFailure is the "could not choose a task" context on
choose_weighted; ExternalCallFailure is a failed or empty taskwarrior
call; FocusFailure is the "could not start focus session" context. -/
inductive AppError where
  | SelectionFailure : AppError
  | ExternalCallFailure : AppError
  | FocusFailure : AppError
deriving Repr, DecidableEq

/-- Total weight used by weighted choice: the sum of the urgencies. -/
def total_urgency (tasks : List Task) : Int :=
  (tasks.map Task.urgency).sum

/-- Cursor walk of weighted sampling: subtract each weight until the
drawn value falls inside the current bucket. -/
def choose_weighted_go : List Task → Int → Option Task
  | [], _ => none
  | t :: rest, v =>
      if v < t.urgency then some t
      else choose_weighted_go rest (v - t.urgency)

/-- Models rand choose_weighted with the task urgencies as weights and
an explicit random draw. It fails (None) exactly when the list is empty,
some weight is negative (an invalid weight), or the total weight is not
positive; otherwise the draw is reduced modulo the total weight and the
matching bucket is returned. -/
def choose_weighted (tasks : List Task) (pick : Int) : Option Task :=
  if tasks.isEmpty then none
  else if tasks.any fun t => decide (t.urgency < 0) then none
  else if total_urgency tasks ≤ 0 then none
  else choose_weighted_go tasks (pick.emod (total_urgency tasks))

instance {ε α : Type} [DecidableEq ε] [DecidableEq α] :
    DecidableEq (Except ε α) := fun x y =>
  match x, y with
  | .error a, .error b =>
      if h : a = b then isTrue (by rw [h]) else isFalse (by simp [h])
  | .error _, .ok _ => isFalse (by simp)
  | .ok _, .error _ => isFalse (by simp)
  | .ok a, .ok b =>
      if h : a = b then isTrue (by rw [h]) else isFalse (by simp [h])

/-- The oracle inputs one call of App.choose_next_task consumes: the
current instant, the d6 roll from rand random_range(0..=5), the result
of the available_tasks export call, and the random draw inside
choose_weighted. -/
structure Oracles where
  now : Int
  roll : Fin 6
  export_result : Except AppError (List Task)
  pick : Int
  focus_ok : Bool

/-- The work branch of App.choose_next_task: propagate a failed export,
draw one task by urgency-weighted choice (failure is the "could not
choose a task" context), and set both length fields to min(estimate,
target) when the task has an estimate, else to the target. -/
def choose_work_task (now : Int) (target_duration : Duration)
    (export_result : Except AppError (List Task)) (pick : Int) :
    Except AppError Activity :=
  match export_result with
  | .error e => .error e
  | .ok tasks =>
      match choose_weighted tasks pick with
      | none => .error .SelectionFailure
      | some task =>
          let length := min (task.estimate.getD target_duration)
            target_duration
          .ok (.Task task now length length)

/-- App.choose_next_task from app.rs: roll 0 while not on a break gives
a 10 minute Break; otherwise the target duration is max(roll,1)*10
minutes and the work branch runs. -/
def choose_next_task (doing : Activity) (o : Oracles) :
    Except AppError Activity :=
  let minutes : Int := ((o.roll : Nat) : Int)
  if minutes == 0 && !doing.is_break then
    let length := Duration.minutes 10
    .ok (.Break o.now length length)
  else
    choose_work_task o.now (Duration.minutes (max minutes 1 * 10))
      o.export_result o.pick

/-- App from app.rs: the taskwarrior handle, the current activity, the
single staged interactive command, and the quit flag. (Config is folded
into Task.urgency, which already stands for urgency_at(now, config).) -/
structure App where
  tw : Taskwarrior
  doing : Activity
  interactive : Option Command
  should_quit : Bool
deriving Repr, DecidableEq

/-- App.new from app.rs. -/
def App.new (tw : Taskwarrior) : App :=
  { tw := tw, doing := .Nothing, interactive := none,
    should_quit := false }

/-- A crossterm event: a key press or anything else. -/
inductive Event where
  | Key (c : Char) : Event
  | Other : Event
deriving Repr, DecidableEq

/-- The state-and-error pair a Rust method on &mut self returning
Result<()> produces: the state at the point of return (mutations already
applied are kept on an early error return) and the optional error. -/
abbrev StepOut := App × Option AppError

/-- The pattern self.doing = self.choose_next_task().await? from
app.rs: install the chosen activity, or keep the state as it is and
propagate the error. -/
def select_and_install (app : App) (o : Oracles) : StepOut :=
  match choose_next_task app.doing o with
  | .ok a => ({ app with doing := a }, none)
  | .error e => (app, some e)

/-- App.handle_tick from app.rs: when doing is Nothing, run
choose_next_task and install the result; an error from it propagates
(no activity is installed). No-op otherwise. -/
def handle_tick (app : App) (o : Oracles) : StepOut :=
  if app.doing.is_nothing then select_and_install app o
  else (app, none)

/-- App.handle_input from app.rs, key by key. The oracle o supplies the
randomness and export result for the at most one choose_next_task call
an input can make, and now for the remaining-time check of key f. -/
def handle_input (app : App) (event : Event) (o : Oracles) : StepOut :=
  match event with
  | .Other => (app, none)
  | .Key c =>
    if c = 'q' then ({ app with should_quit := true }, none)
    else if c = 'd' then
      select_and_install
        { app with interactive := app.doing.mark_done_command app.tw } o
    else if c = 'r' then
      select_and_install app o
    else if c = 'm' then ({ app with doing := app.doing.extend }, none)
    else if c = 'e' then
      match app.doing with
      | .Task t _ _ _ =>
          ({ app with
              interactive := some (app.tw.edit_command t.uuid) }, none)
      | _ => (app, none)
    else if c = 'w' then
      match app.doing with
      | .Task t _ _ _ =>
          select_and_install
            { app with
                interactive := some (app.tw.modify_wait_command t.uuid) }
            o
      | _ => (app, none)
    else if c = 'o' then
      match app.doing with
      | .Task t _ _ _ =>
          ({ app with
              interactive := some (open_command t.uuid) }, none)
      | _ => (app, none)
    else if c = 'b' then
      match app.doing with
      | .Task t _ _ _ =>
          ({ app with
              interactive := some (breakdown_command t.uuid) }, none)
      | _ => (app, none)
    else if c = 'f' then
      match app.doing with
      | .Task _ s l _ =>
          if 0 < (l - (o.now - s)).tdiv 1000 then
            if o.focus_ok then (app, none)
            else (app, some .FocusFailure)
          else (app, none)
      | _ => (app, none)
    else (app, none)

/-- Activity.refresh_task from app.rs: for Task, re-fetch the snapshot
by uuid from the external collaborator (fetch models the export call
with the uuid and limit:1 filters; None covers both a failed call and an
empty result) and replace it in place; no-op otherwise. -/
def Activity.refresh_task (fetch : String → Option TaskRand.Task) :
    Activity → Except AppError Activity
  | .Task t s l o =>
      match fetch t.uuid with
      | some t2 => .ok (.Task t2 s l o)
      | none => .error .ExternalCallFailure
  | a => .ok a

/-- The event one iteration of the run_ui loop wakes up on: the 1 second
tick or an input event. -/
inductive LoopEvent where
  | TickEvent : LoopEvent
  | InputEvent (e : Event) : LoopEvent
deriving Repr, DecidableEq

/-- How the run loop terminates: the app error that propagated out of a
handler, a staged interactive command exiting non-zero, or a failed
refresh after a successful command. -/
inductive RunError where
  | AppErr (e : AppError) : RunError
  | InteractiveProgramFailure : RunError
deriving Repr, DecidableEq

/-- The outcome of one iteration of the run_ui loop from main.rs: keep
looping with the new app state, break out cleanly on quit, or abort the
run with an error (the app state at that moment is kept for
inspection). -/
inductive LoopStep where
  | Continue (app : App) : LoopStep
  | ExitOk (app : App) : LoopStep
  | ExitErr (e : RunError) (app : App) : LoopStep
deriving Repr, DecidableEq

/-- True when the loop iteration keeps the run alive. -/
def LoopStep.is_continue : LoopStep → Bool
  | .Continue _ => true
  | _ => false

/-- The app state a loop iteration ends with, whichever way it ends. -/
def LoopStep.app : LoopStep → App
  | .Continue a => a
  | .ExitOk a => a
  | .ExitErr _ a => a

/-- One iteration of Cli.run_ui from main.rs after the draw: dispatch
the tick or input event; an error from the handler propagates and
terminates the run. Then break cleanly when quit was requested. Then, if
an interactive command is staged, take it (the slot is cleared), run it
(cmd_status gives its exit status): on failure the run terminates with
an error; on success refresh the current activity, a failure of which
also terminates the run. -/
def run_ui_step (app : App) (event : LoopEvent) (o : Oracles)
    (cmd_status : Command → Bool) (fetch : String → Option Task) :
    LoopStep :=
  let out :=
    match event with
    | .TickEvent => handle_tick app o
    | .InputEvent e => handle_input app e o
  match out.2 with
  | some e => .ExitErr (.AppErr e) out.1
  | none =>
      let app1 := out.1
      if app1.should_quit then .ExitOk app1
      else
        match app1.interactive with
        | some cmd =>
            let app2 := { app1 with interactive := none }
            if cmd_status cmd then
              match app2.doing.refresh_task fetch with
              | .ok a => .Continue { app2 with doing := a }
              | .error e => .ExitErr (.AppErr e) app2
            else .ExitErr .InteractiveProgramFailure app2
        | none => .Continue app1

/-- The target work duration the selector computes from the d6 roll:
max(roll, 1) * 10 minutes. -/
def target_of_roll (roll : Fin 6) : Duration :=
  Duration.minutes (max ((roll : Nat) : Int) 1 * 10)

/-- C4: a selection with roll 0 while the current activity is not
OnBreak yields an OnBreak activity whose planned_length and
original_length are both 10 minutes and whose started_at is the
selection instant now. -/
theorem c4_roll_zero_gives_break (doing : Activity) (o : Oracles)
    (hb : doing.is_break = false) (hr : o.roll = 0) :
    choose_next_task doing o =
      .ok (.Break o.now (Duration.minutes 10) (Duration.minutes 10)) := by
  simp [choose_next_task, hr, hb]

/-- Witness for c4_roll_zero_gives_break at a concrete state. -/
theorem c4_roll_zero_gives_break_witness :
    choose_next_task .Nothing
        { now := 5, roll := 0, export_result := .ok [], pick := 0,
          focus_ok := true } =
      .ok (.Break 5 (Duration.minutes 10) (Duration.minutes 10)) :=
  c4_roll_zero_gives_break .Nothing
    { now := 5, roll := 0, export_result := .ok [], pick := 0,
      focus_ok := true } rfl rfl

/-- C5: extending n times adds n times the original length to the
planned length, leaving started and original_length unchanged, for both
Task and Break activities; extend is a no-op on Nothing. -/
theorem c5_extend_additive :
    (∀ (n : Nat) (t : Task) (s : Int) (l o : Duration),
      Activity.extend^[n] (.Task t s l o) = .Task t s (l + n * o) o) ∧
    (∀ (n : Nat) (s : Int) (l o : Duration),
      Activity.extend^[n] (.Break s l o) = .Break s (l + n * o) o) ∧
    (∀ n : Nat, Activity.extend^[n] .Nothing = .Nothing) := by
  refine ⟨?_, ?_, ?_⟩
  · intro n
    induction n with
    | zero => intro t s l o; simp
    | succ n ih =>
        intro t s l o
        rw [Function.iterate_succ_apply, Activity.extend, ih]
        congr 1
        push_cast
        ring
  · intro n
    induction n with
    | zero => intro s l o; simp
    | succ n ih =>
        intro s l o
        rw [Function.iterate_succ_apply, Activity.extend, ih]
        congr 1
        push_cast
        ring
  · intro n
    induction n with
    | zero => simp
    | succ n ih => rw [Function.iterate_succ_apply, Activity.extend, ih]

/-- Shape of a successful work-branch selection: the chosen task comes
from choose_weighted on a successful export, started is now, and both
length fields are min(estimate or target, target). -/
theorem choose_work_task_ok {now : Int} {T : Duration}
    {r : Except AppError (List Task)} {pick : Int} {a : Activity}
    (h : choose_work_task now T r pick = .ok a) :
    ∃ tasks tk, r = .ok tasks ∧ choose_weighted tasks pick = some tk ∧
      a = .Task tk now (min (tk.estimate.getD T) T)
        (min (tk.estimate.getD T) T) := by
  cases r with
  | error e => simp [choose_work_task] at h
  | ok tasks =>
      cases hcw : choose_weighted tasks pick with
      | none => simp [choose_work_task, hcw] at h
      | some tk =>
          refine ⟨tasks, tk, rfl, hcw, ?_⟩
          simp only [choose_work_task, hcw, Except.ok.injEq] at h
          exact h.symm

/-- C1: whenever a selection installs a work session, its planned_length
and original_length are min(estimate, target) when the chosen task
declares an estimate and exactly the target otherwise, where the target
is the max(roll,1)*10 minute duration rolled. -/
theorem c1_work_length_min_estimate (doing : Activity) (o : Oracles)
    (tk : Task) (s : Int) (l ol : Duration)
    (h : choose_next_task doing o = .ok (.Task tk s l ol)) :
    (∀ E, tk.estimate = some E →
        l = min E (target_of_roll o.roll) ∧
        ol = min E (target_of_roll o.roll)) ∧
    (tk.estimate = none →
        l = target_of_roll o.roll ∧ ol = target_of_roll o.roll) := by
  unfold choose_next_task at h
  dsimp only at h
  split at h
  · simp at h
  · obtain ⟨tasks, tk2, -, -, ha⟩ := choose_work_task_ok h
    rw [Activity.Task.injEq] at ha
    obtain ⟨htk, -, hl, hol⟩ := ha
    subst htk
    constructor
    · intro E hE
      rw [hl, hol, hE]
      simp [target_of_roll]
    · intro hE
      rw [hl, hol, hE]
      simp [target_of_roll]

/-- A concrete task with a 15 minute estimate. -/
def tk_est15 : Task :=
  { uuid := "u1", description := "a",
    estimate := some (Duration.minutes 15), urgency := 3 }

/-- A concrete oracle: roll 2 (20 minute target), one candidate task. -/
def o_roll2 : Oracles :=
  { now := 0, roll := 2, export_result := .ok [tk_est15], pick := 0,
    focus_ok := true }

/-- Witness for c1_work_length_min_estimate: a task with a 15 minute
estimate and a roll of 2 (20 minute target) gets a 15 minute session. -/
theorem c1_work_length_min_estimate_witness :
    (choose_next_task .Nothing o_roll2 =
      .ok (.Task tk_est15 0 (Duration.minutes 15)
        (Duration.minutes 15))) ∧
    (Duration.minutes 15 =
        min (Duration.minutes 15) (target_of_roll 2) ∧
      Duration.minutes 15 =
        min (Duration.minutes 15) (target_of_roll 2)) := by
  refine ⟨by decide, ?_⟩
  exact (c1_work_length_min_estimate .Nothing o_roll2 tk_est15
    0 (Duration.minutes 15) (Duration.minutes 15)
    (by decide)).1 (Duration.minutes 15) rfl

/-- Unfolding of handle_input at key q. -/
theorem handle_input_q (app : App) (o : Oracles) :
    handle_input app (.Key 'q') o =
      ({ app with should_quit := true }, none) := rfl

/-- Unfolding of handle_input at key d. -/
theorem handle_input_d (app : App) (o : Oracles) :
    handle_input app (.Key 'd') o =
      select_and_install
        { app with interactive := app.doing.mark_done_command app.tw }
        o := rfl

/-- Unfolding of handle_input at key r. -/
theorem handle_input_r (app : App) (o : Oracles) :
    handle_input app (.Key 'r') o = select_and_install app o := rfl

/-- Unfolding of handle_input at key m. -/
theorem handle_input_m (app : App) (o : Oracles) :
    handle_input app (.Key 'm') o =
      ({ app with doing := app.doing.extend }, none) := rfl

/-- Unfolding of handle_input at key e when a task is being worked. -/
theorem handle_input_e (app : App) (o : Oracles) (t : Task) (s : Int)
    (l ol : Duration) (hd : app.doing = .Task t s l ol) :
    handle_input app (.Key 'e') o =
      ({ app with interactive := some (app.tw.edit_command t.uuid) },
        none) := by
  unfold handle_input
  rw [hd]
  rfl

/-- Unfolding of handle_input at key w when a task is being worked. -/
theorem handle_input_w (app : App) (o : Oracles) (t : Task) (s : Int)
    (l ol : Duration) (hd : app.doing = .Task t s l ol) :
    handle_input app (.Key 'w') o =
      select_and_install
        { app with
            interactive := some (app.tw.modify_wait_command t.uuid) }
        o := by
  unfold handle_input
  rw [hd]
  rfl

/-- Unfolding of handle_input at key o when a task is being worked. -/
theorem handle_input_o (app : App) (o : Oracles) (t : Task) (s : Int)
    (l ol : Duration) (hd : app.doing = .Task t s l ol) :
    handle_input app (.Key 'o') o =
      ({ app with interactive := some (open_command t.uuid) }, none) := by
  unfold handle_input
  rw [hd]
  rfl

/-- Unfolding of handle_input at key b when a task is being worked. -/
theorem handle_input_b (app : App) (o : Oracles) (t : Task) (s : Int)
    (l ol : Duration) (hd : app.doing = .Task t s l ol) :
    handle_input app (.Key 'b') o =
      ({ app with interactive := some (breakdown_command t.uuid) },
        none) := by
  unfold handle_input
  rw [hd]
  rfl

/-- Unfolding of handle_input at key f when a task is being worked: a
focus session is attempted only with positive remaining seconds, and
never changes the app state beyond a possible error. -/
theorem handle_input_f (app : App) (o : Oracles) (t : Task) (s : Int)
    (l ol : Duration) (hd : app.doing = .Task t s l ol) :
    handle_input app (.Key 'f') o =
      (if 0 < (l - (o.now - s)).tdiv 1000 then
        (if o.focus_ok then (app, none)
         else (app, some .FocusFailure))
      else (app, none)) := by
  unfold handle_input
  rw [hd]
  rfl

/-- C3: while the current activity is OnBreak, a roll of 0 behaves
exactly as a roll of 1 (the minimum work bucket, a 10 minute target):
the selection never yields a Break, and a successful selection is a work
session whose length is min(estimate or 10 minutes, 10 minutes). -/
theorem c3_no_consecutive_break (doing : Activity) (o : Oracles)
    (hb : doing.is_break = true) (hr : o.roll = 0) :
    choose_next_task doing o =
      choose_next_task doing { o with roll := 1 } ∧
    (∀ a, choose_next_task doing o = .ok a →
      a.is_break = false ∧ a.is_nothing = false) ∧
    (∀ tk s l ol, choose_next_task doing o = .ok (.Task tk s l ol) →
      l = min (tk.estimate.getD (Duration.minutes 10))
        (Duration.minutes 10)) := by
  have hred : choose_next_task doing o =
      choose_work_task o.now (Duration.minutes 10) o.export_result
        o.pick := by
    simp [choose_next_task, hb, hr]
  have hred1 : choose_next_task doing { o with roll := 1 } =
      choose_work_task o.now (Duration.minutes 10) o.export_result
        o.pick := by
    simp [choose_next_task, hb]
  refine ⟨hred.trans hred1.symm, ?_, ?_⟩
  · intro a h
    rw [hred] at h
    obtain ⟨tasks, tk, -, -, ha⟩ := choose_work_task_ok h
    rw [ha]
    exact ⟨rfl, rfl⟩
  · intro tk s l ol h
    rw [hred] at h
    obtain ⟨tasks, tk2, -, -, ha⟩ := choose_work_task_ok h
    rw [Activity.Task.injEq] at ha
    obtain ⟨htk, -, hl, -⟩ := ha
    subst htk
    exact hl

/-- A concrete 10 minute break in progress. -/
def brk10 : Activity :=
  .Break 0 (Duration.minutes 10) (Duration.minutes 10)

/-- A concrete oracle with a roll of 0 and one candidate task. -/
def o_break_roll0 : Oracles :=
  { now := 3, roll := 0, export_result := .ok [tk_est15], pick := 0,
    focus_ok := true }

/-- Witness for c3_no_consecutive_break: rolling 0 while on a break
selects a work session capped at the 10 minute minimum bucket. -/
theorem c3_no_consecutive_break_witness :
    (choose_next_task brk10 o_break_roll0 =
      choose_next_task brk10 { o_break_roll0 with roll := 1 }) ∧
    (Activity.is_break
        (.Task tk_est15 3 (Duration.minutes 10) (Duration.minutes 10)) =
      false ∧
      Activity.is_nothing
          (.Task tk_est15 3 (Duration.minutes 10)
            (Duration.minutes 10)) =
        false) ∧
    Duration.minutes 10 =
      min (tk_est15.estimate.getD (Duration.minutes 10))
        (Duration.minutes 10) := by
  have h := c3_no_consecutive_break brk10 o_break_roll0 rfl rfl
  exact ⟨h.1, h.2.1 _ (by decide),
    h.2.2 tk_est15 3 (Duration.minutes 10) (Duration.minutes 10)
      (by decide)⟩

/-- A concrete task with no estimate. -/
def tk_plain : Task :=
  { uuid := "u2", description := "b", estimate := none, urgency := 5 }

/-- A concrete idle app state. -/
def app_idle : App :=
  { tw := { binary := "task" }, doing := .Nothing, interactive := none,
    should_quit := false }

/-- A concrete oracle whose selection fails: non-zero roll and an empty
candidate list. -/
def o_empty : Oracles :=
  { now := 0, roll := 3, export_result := .ok [], pick := 0,
    focus_ok := true }

/-- C2 counterexample: at an idle state with a non-break roll and an
empty candidate list, the selection fails with SelectionFailure, yet the
loop iteration does not continue: the claimed behaviour (the event loop
keeps running awaiting a manual reroll) is false, the error propagates
out of the loop. -/
theorem c2_counterexample :
    choose_next_task app_idle.doing o_empty =
      .error .SelectionFailure ∧
    (run_ui_step app_idle .TickEvent o_empty (fun _ => true)
      (fun _ => none)).is_continue = false := by
  exact ⟨by decide, by decide⟩

/-- C2 (amended): when a tick-driven selection attempt fails with
SelectionFailure, the run terminates with that error and the app state
(in particular the current Activity) is exactly as it was: nothing is
installed, but the loop does not keep running. -/
theorem c2_selection_failure_terminates (app : App) (o : Oracles)
    (cmd_status : Command → Bool) (fetch : String → Option Task)
    (hn : app.doing.is_nothing = true)
    (hf : choose_next_task app.doing o = .error .SelectionFailure) :
    run_ui_step app .TickEvent o cmd_status fetch =
      .ExitErr (.AppErr .SelectionFailure) app := by
  have ht : handle_tick app o = (app, some .SelectionFailure) := by
    simp [handle_tick, hn, select_and_install, hf]
  simp [run_ui_step, ht]

/-- Witness for c2_selection_failure_terminates at the concrete idle
state with an empty candidate list. -/
theorem c2_selection_failure_terminates_witness :
    run_ui_step app_idle .TickEvent o_empty (fun _ => true)
      (fun _ => none) =
      .ExitErr (.AppErr .SelectionFailure) app_idle :=
  c2_selection_failure_terminates app_idle o_empty (fun _ => true)
    (fun _ => none) rfl (by decide)

/-- C9: refresh on a work session with a successful fetch replaces only
the task snapshot, keeping started, length and original_length; on a
break or on nothing it changes nothing and succeeds. -/
theorem c9_refresh_frame (fetch : String → Option Task) :
    (∀ (t : Task) (s : Int) (l ol : Duration) (t2 : Task),
      fetch t.uuid = some t2 →
      Activity.refresh_task fetch (.Task t s l ol) =
        .ok (.Task t2 s l ol)) ∧
    (∀ (s : Int) (l ol : Duration),
      Activity.refresh_task fetch (.Break s l ol) =
        .ok (.Break s l ol)) ∧
    Activity.refresh_task fetch .Nothing = .ok .Nothing := by
  refine ⟨?_, fun s l ol => rfl, rfl⟩
  intro t s l ol t2 hf
  simp [Activity.refresh_task, hf]

/-- Witness for c9_refresh_frame: a concrete fetch returning a fresh
snapshot for the held uuid. -/
theorem c9_refresh_frame_witness :
    (Activity.refresh_task
        (fun u => if u = "u1" then some tk_plain else none)
        (.Task tk_est15 7 (Duration.minutes 20) (Duration.minutes 10)) =
      .ok (.Task tk_plain 7 (Duration.minutes 20)
        (Duration.minutes 10))) ∧
    (Activity.refresh_task
        (fun u => if u = "u1" then some tk_plain else none)
        brk10 = .ok brk10) := by
  have h := c9_refresh_frame
    (fun u => if u = "u1" then some tk_plain else none)
  exact ⟨h.1 tk_est15 7 (Duration.minutes 20) (Duration.minutes 10)
    tk_plain (by decide), h.2.1 0 (Duration.minutes 10)
    (Duration.minutes 10)⟩

/-- select_and_install never touches the interactive slot: it is kept
as it is whether the selection succeeds or fails. -/
theorem select_and_install_interactive (app : App) (o : Oracles) :
    (select_and_install app o).1.interactive = app.interactive := by
  unfold select_and_install
  cases choose_next_task app.doing o <;> rfl

/-- mark_done_command yields no command on a break or on nothing. -/
theorem mark_done_command_nonworking (app : App)
    (hd : app.doing.is_break = true ∨ app.doing.is_nothing = true) :
    app.doing.mark_done_command app.tw = none := by
  cases ha : app.doing with
  | Nothing => rfl
  | Break s l ol => rfl
  | Task t s l ol =>
      rw [ha] at hd
      rcases hd with h | h <;> simp [Activity.is_break,
        Activity.is_nothing] at h

/-- C10: handling the complete key while a command is already staged and
the current activity is OnBreak or Nothing overwrites the staged
interaction with the empty value (mark_done_command returns none) and
still triggers a re-selection: the handler is exactly select-and-install
on the state with the slot cleared, so the slot ends empty whether the
selection succeeds or fails. -/
theorem c10_done_discards_staged (app : App) (o : Oracles) (c : Command)
    (_hi : app.interactive = some c)
    (hd : app.doing.is_break = true ∨ app.doing.is_nothing = true) :
    handle_input app (.Key 'd') o =
      select_and_install { app with interactive := none } o ∧
    (handle_input app (.Key 'd') o).1.interactive = none := by
  have hmd := mark_done_command_nonworking app hd
  have h1 : handle_input app (.Key 'd') o =
      select_and_install { app with interactive := none } o := by
    rw [handle_input_d, hmd]
  refine ⟨h1, ?_⟩
  rw [h1, select_and_install_interactive]

/-- A concrete app state on a break with a staged command. -/
def app_break_staged : App :=
  { tw := { binary := "task" }, doing := brk10,
    interactive := some (open_command "u1"), should_quit := false }

/-- Witness for c10_done_discards_staged: completing while on a break
with a staged open command discards it and re-selects. -/
theorem c10_done_discards_staged_witness :
    (handle_input app_break_staged (.Key 'd') o_break_roll0 =
      select_and_install { app_break_staged with interactive := none }
        o_break_roll0) ∧
    (handle_input app_break_staged (.Key 'd')
      o_break_roll0).1.interactive = none :=
  c10_done_discards_staged app_break_staged o_break_roll0
    (open_command "u1") rfl (Or.inl rfl)

/-- The planned_length >= original_length invariant on an activity
(trivially true for Nothing, whose lengths are both 0). -/
def Activity.length_inv (a : Activity) : Prop :=
  a.original_len ≤ a.planned_length

instance (a : Activity) : Decidable a.length_inv := by
  unfold Activity.length_inv
  infer_instance

/-- A successful selection sets original_length equal to
planned_length, for both the break and the work outcome. -/
theorem choose_next_task_ok_lengths (doing : Activity) (o : Oracles)
    (a : Activity) (h : choose_next_task doing o = .ok a) :
    a.original_len = a.planned_length := by
  unfold choose_next_task at h
  dsimp only at h
  split at h
  · rw [Except.ok.injEq] at h
    rw [← h]
    rfl
  · obtain ⟨tasks, tk, -, -, ha⟩ := choose_work_task_ok h
    rw [ha]
    rfl

/-- select_and_install preserves the length invariant of doing: on
success the installed activity has equal lengths, on failure doing is
unchanged. -/
theorem select_and_install_length_inv (app : App) (o : Oracles)
    (h : app.doing.length_inv) :
    (select_and_install app o).1.doing.length_inv := by
  unfold select_and_install
  cases hct : choose_next_task app.doing o with
  | error e => exact h
  | ok a =>
      have := choose_next_task_ok_lengths _ _ _ hct
      exact le_of_eq this

/-- extend preserves the length invariant when the original length is
non-negative. -/
theorem extend_length_inv (a : Activity) (h0 : 0 ≤ a.original_len)
    (h : a.length_inv) : a.extend.length_inv := by
  cases a with
  | Nothing => exact h
  | Task t s l ol =>
      simp only [Activity.length_inv, Activity.extend,
        Activity.original_len, Activity.planned_length] at h0 h ⊢
      linarith
  | Break s l ol =>
      simp only [Activity.length_inv, Activity.extend,
        Activity.original_len, Activity.planned_length] at h0 h ⊢
      linarith

/-- refresh_task preserves the length invariant: it never touches the
timing fields. -/
theorem refresh_length_inv (fetch : String → Option Task)
    (a a2 : Activity) (h : Activity.refresh_task fetch a = .ok a2)
    (hinv : a.length_inv) : a2.length_inv := by
  cases a with
  | Nothing =>
      unfold Activity.refresh_task at h
      dsimp only at h
      rw [Except.ok.injEq] at h
      rw [← h]
      exact hinv
  | Break s l ol =>
      unfold Activity.refresh_task at h
      dsimp only at h
      rw [Except.ok.injEq] at h
      rw [← h]
      exact hinv
  | Task t s l ol =>
      unfold Activity.refresh_task at h
      dsimp only at h
      cases hf : fetch t.uuid with
      | none => rw [hf] at h; simp at h
      | some t2 =>
          rw [hf] at h
          rw [Except.ok.injEq] at h
          rw [← h]
          exact hinv

/-- handle_tick preserves the length invariant of doing. -/
theorem handle_tick_length_inv (app : App) (o : Oracles)
    (h : app.doing.length_inv) :
    (handle_tick app o).1.doing.length_inv := by
  unfold handle_tick
  split
  · exact select_and_install_length_inv app o h
  · exact h

set_option maxHeartbeats 1000000 in
/-- handle_input preserves the length invariant of doing, given a
non-negative original length (needed by the extend key). -/
theorem handle_input_length_inv (app : App) (e : Event) (o : Oracles)
    (h0 : 0 ≤ app.doing.original_len) (h : app.doing.length_inv) :
    (handle_input app e o).1.doing.length_inv := by
  cases e with
  | Other => exact h
  | Key c =>
      by_cases h1 : c = 'q'
      · subst h1
        rw [handle_input_q]
        exact h
      by_cases h2 : c = 'd'
      · subst h2
        rw [handle_input_d]
        exact select_and_install_length_inv _ o h
      by_cases h3 : c = 'r'
      · subst h3
        rw [handle_input_r]
        exact select_and_install_length_inv _ o h
      by_cases h4 : c = 'm'
      · subst h4
        rw [handle_input_m]
        exact extend_length_inv _ h0 h
      by_cases h5 : c = 'e'
      · subst h5
        cases hdc : app.doing with
        | Task t s l ol =>
            rw [handle_input_e app o t s l ol hdc]
            exact h
        | Nothing =>
            have he : handle_input app (.Key 'e') o = (app, none) := by
              unfold handle_input
              rw [hdc]
              rfl
            rw [he]
            exact h
        | Break s l ol =>
            have he : handle_input app (.Key 'e') o = (app, none) := by
              unfold handle_input
              rw [hdc]
              rfl
            rw [he]
            exact h
      by_cases h6 : c = 'w'
      · subst h6
        cases hdc : app.doing with
        | Task t s l ol =>
            rw [handle_input_w app o t s l ol hdc]
            exact select_and_install_length_inv _ o h
        | Nothing =>
            have he : handle_input app (.Key 'w') o = (app, none) := by
              unfold handle_input
              rw [hdc]
              rfl
            rw [he]
            exact h
        | Break s l ol =>
            have he : handle_input app (.Key 'w') o = (app, none) := by
              unfold handle_input
              rw [hdc]
              rfl
            rw [he]
            exact h
      by_cases h7 : c = 'o'
      · subst h7
        cases hdc : app.doing with
        | Task t s l ol =>
            rw [handle_input_o app o t s l ol hdc]
            exact h
        | Nothing =>
            have he : handle_input app (.Key 'o') o = (app, none) := by
              unfold handle_input
              rw [hdc]
              rfl
            rw [he]
            exact h
        | Break s l ol =>
            have he : handle_input app (.Key 'o') o = (app, none) := by
              unfold handle_input
              rw [hdc]
              rfl
            rw [he]
            exact h
      by_cases h8 : c = 'b'
      · subst h8
        cases hdc : app.doing with
        | Task t s l ol =>
            rw [handle_input_b app o t s l ol hdc]
            exact h
        | Nothing =>
            have he : handle_input app (.Key 'b') o = (app, none) := by
              unfold handle_input
              rw [hdc]
              rfl
            rw [he]
            exact h
        | Break s l ol =>
            have he : handle_input app (.Key 'b') o = (app, none) := by
              unfold handle_input
              rw [hdc]
              rfl
            rw [he]
            exact h
      by_cases h9 : c = 'f'
      · subst h9
        cases hdc : app.doing with
        | Task t s l ol =>
            rw [handle_input_f app o t s l ol hdc]
            split_ifs <;> exact h
        | Nothing =>
            have he : handle_input app (.Key 'f') o = (app, none) := by
              unfold handle_input
              rw [hdc]
              rfl
            rw [he]
            exact h
        | Break s l ol =>
            have he : handle_input app (.Key 'f') o = (app, none) := by
              unfold handle_input
              rw [hdc]
              rfl
            rw [he]
            exact h
      have hdflt : handle_input app (.Key c) o = (app, none) := by
        unfold handle_input
        dsimp only
        rw [if_neg h1, if_neg h2, if_neg h3, if_neg h4, if_neg h5,
          if_neg h6, if_neg h7, if_neg h8, if_neg h9]
      rw [hdflt]
      exact h

/-- C6: the planned_length >= original_length invariant: every
successful selection establishes it (with equal lengths), and it is
preserved by extend (given a non-negative original length) and by every
tick, input (complete, reroll, extend, staging keys) and refresh
operation of the engine. -/
theorem c6_length_invariant :
    (∀ (doing : Activity) (o : Oracles) (a : Activity),
      choose_next_task doing o = .ok a → a.length_inv) ∧
    (∀ a : Activity, 0 ≤ a.original_len → a.length_inv →
      a.extend.length_inv) ∧
    (∀ (app : App) (o : Oracles), app.doing.length_inv →
      (handle_tick app o).1.doing.length_inv) ∧
    (∀ (app : App) (e : Event) (o : Oracles),
      0 ≤ app.doing.original_len → app.doing.length_inv →
      (handle_input app e o).1.doing.length_inv) ∧
    (∀ (fetch : String → Option Task) (a a2 : Activity),
      Activity.refresh_task fetch a = .ok a2 → a.length_inv →
      a2.length_inv) :=
  ⟨fun doing o a h => le_of_eq (choose_next_task_ok_lengths doing o a h),
   extend_length_inv, handle_tick_length_inv, handle_input_length_inv,
   refresh_length_inv⟩

/-- Witness for c6_length_invariant: each part applied at a concrete
state. -/
theorem c6_length_invariant_witness :
    Activity.length_inv
      (.Break 3 (Duration.minutes 10) (Duration.minutes 10)) ∧
    Activity.length_inv brk10.extend ∧
    (handle_tick app_idle o_break_roll0).1.doing.length_inv ∧
    (handle_input app_break_staged (.Key 'm')
      o_break_roll0).1.doing.length_inv ∧
    Activity.length_inv brk10 :=
  ⟨c6_length_invariant.1 .Nothing o_break_roll0 _ (by decide),
   c6_length_invariant.2.1 brk10 (by decide) (by decide),
   c6_length_invariant.2.2.1 app_idle o_break_roll0 (by decide),
   c6_length_invariant.2.2.2.1 app_break_staged (.Key 'm')
     o_break_roll0 (by decide) (by decide),
   c6_length_invariant.2.2.2.2 (fun _ => none) brk10 brk10 (by decide)
     (by decide)⟩

/-- A concrete app state working a task, with nothing staged. -/
def app_working : App :=
  { tw := { binary := "task" },
    doing := .Task tk_est15 0 (Duration.minutes 10)
      (Duration.minutes 10),
    interactive := none, should_quit := false }

/-- A concrete oracle with roll 3 (30 minute target) and one candidate
task without an estimate, so re-selection succeeds. -/
def o_c7 : Oracles :=
  { now := 1, roll := 3, export_result := .ok [tk_plain], pick := 0,
    focus_ok := true }

/-- C7 counterexample: a Working task completed while the mark-complete
command fails does terminate the run with an error, but a new activity
has already been installed in place of the completed one (it is neither
the old activity nor Nothing), so the claim that no new activity is
installed is false. -/
theorem c7_counterexample :
    run_ui_step app_working (.InputEvent (.Key 'd')) o_c7
        (fun _ => false) (fun _ => none) =
      .ExitErr .InteractiveProgramFailure
        { app_working with
            doing := .Task tk_plain 1 (Duration.minutes 30)
              (Duration.minutes 30),
            interactive := none } ∧
    ¬ ((run_ui_step app_working (.InputEvent (.Key 'd')) o_c7
        (fun _ => false) (fun _ => none)).app.doing =
      app_working.doing) ∧
    ¬ ((run_ui_step app_working (.InputEvent (.Key 'd')) o_c7
        (fun _ => false) (fun _ => none)).app.doing = .Nothing) := by
  exact ⟨by decide, by decide, by decide⟩

/-- C7 (amended): when a Working task is completed and the staged
mark-complete command exits non-zero, the run terminates with an error,
but the newly selected activity has already been installed in place of
the completed one: the final state holds the fresh selection, not the
old task and not Nothing. -/
theorem c7_complete_failure_terminates (app : App) (o : Oracles)
    (cmd_status : Command → Bool) (fetch : String → Option Task)
    (tk : Task) (s : Int) (l ol : Duration) (a : Activity)
    (hd : app.doing = .Task tk s l ol)
    (hq : app.should_quit = false)
    (hsel : choose_next_task app.doing o = .ok a)
    (hcmd : cmd_status (app.tw.mark_done_command tk.uuid) = false) :
    run_ui_step app (.InputEvent (.Key 'd')) o cmd_status fetch =
      .ExitErr .InteractiveProgramFailure
        { app with doing := a, interactive := none } := by
  rw [hd] at hsel
  have h1 : handle_input app (.Key 'd') o =
      ({ app with
          interactive := some (app.tw.mark_done_command tk.uuid),
          doing := a }, none) := by
    rw [handle_input_d, hd]
    unfold select_and_install
    dsimp only
    rw [hsel]
    rfl
  simp [run_ui_step, h1, hq, hcmd]

/-- Witness for c7_complete_failure_terminates at the concrete working
state with a failing command. -/
theorem c7_complete_failure_terminates_witness :
    run_ui_step app_working (.InputEvent (.Key 'd')) o_c7
        (fun _ => false) (fun _ => none) =
      .ExitErr .InteractiveProgramFailure
        { app_working with
            doing := .Task tk_plain 1 (Duration.minutes 30)
              (Duration.minutes 30),
            interactive := none } :=
  c7_complete_failure_terminates app_working o_c7 (fun _ => false)
    (fun _ => none) tk_est15 0 (Duration.minutes 10)
    (Duration.minutes 10)
    (.Task tk_plain 1 (Duration.minutes 30) (Duration.minutes 30))
    rfl rfl (by decide) rfl

/-- C8 counterexample: pressing edit on a Working task stages the edit
command but does not select a new activity, even though a selection
would have succeeded and produced a different activity; the claim that
every staging action immediately installs the next activity is false. -/
theorem c8_counterexample :
    (handle_input app_working (.Key 'e') o_c7).1.doing =
      app_working.doing ∧
    (handle_input app_working (.Key 'e') o_c7).1.interactive =
      some (Taskwarrior.edit_command { binary := "task" } "u1") ∧
    choose_next_task app_working.doing o_c7 =
      .ok (.Task tk_plain 1 (Duration.minutes 30)
        (Duration.minutes 30)) ∧
    ¬ (Activity.Task tk_plain 1 (Duration.minutes 30)
        (Duration.minutes 30) = app_working.doing) := by
  exact ⟨by decide, by decide, by decide, by decide⟩

/-- C8 (amended): of the staging actions on a Working task, complete (d)
and defer (w) immediately re-select and install the next activity in
the same operation, while edit (e), open-external (o) and breakdown (b)
only stage the interaction and leave the current activity unchanged. -/
theorem c8_staging_behaviour (app : App) (o : Oracles) (tk : Task)
    (s : Int) (l ol : Duration) (hd : app.doing = .Task tk s l ol) :
    (handle_input app (.Key 'e') o =
      ({ app with interactive := some (app.tw.edit_command tk.uuid) },
        none)) ∧
    (handle_input app (.Key 'o') o =
      ({ app with interactive := some (open_command tk.uuid) },
        none)) ∧
    (handle_input app (.Key 'b') o =
      ({ app with
          interactive := some (breakdown_command tk.uuid) }, none)) ∧
    (∀ a, choose_next_task app.doing o = .ok a →
      (handle_input app (.Key 'd') o).1.doing = a ∧
      (handle_input app (.Key 'w') o).1.doing = a) := by
  refine ⟨handle_input_e app o tk s l ol hd,
    handle_input_o app o tk s l ol hd,
    handle_input_b app o tk s l ol hd, ?_⟩
  intro a ha
  constructor
  · rw [handle_input_d]
    unfold select_and_install
    dsimp only
    rw [hd] at ha
    rw [hd, ha]
  · rw [handle_input_w app o tk s l ol hd]
    unfold select_and_install
    dsimp only
    rw [ha]

/-- Witness for c8_staging_behaviour at the concrete working state. -/
theorem c8_staging_behaviour_witness :
    (handle_input app_working (.Key 'e') o_c7 =
      ({ app_working with
          interactive :=
            some (app_working.tw.edit_command tk_est15.uuid) },
        none)) ∧
    (handle_input app_working (.Key 'd') o_c7).1.doing =
      .Task tk_plain 1 (Duration.minutes 30) (Duration.minutes 30) := by
  have h := c8_staging_behaviour app_working o_c7 tk_est15 0
    (Duration.minutes 10) (Duration.minutes 10) rfl
  exact ⟨h.1, (h.2.2.2 _ (by decide)).1⟩

end TaskRand
